import Mathlib

/-!
Verification of the go-judge execution engine against its specification.

The definitions below are a shallow embedding of the Go sources:
`pkg/runner/run.go` and `pkg/runner/runner.go` (the single-command runner),
`runner/pool.go` (environment and cgroup pools), the envexec
`copyOutAndCollect` routine, the linuxcontainer `newProcess` wrapper, and
`cmd/executorserver/main.go` (HTTP mux and auth middleware).  Machine
integers are modelled as `Nat` with explicit `% 2 ^ 64` where Go's `uint64`
wrap-around matters; Go functions returning `error` become `Option String`
or `Except String`; concurrent loops whose only observable effects are the
first error written to a one-slot channel and the per-item side effects are
modelled as sequential folds over the items.
-/

namespace GoJudge

/-- Raw sandbox status (`github.com/criyle/go-sandbox/types.Status`).  The
named constructors are exactly the cases matched by `convertStatus` in
`pkg/runner/run.go`; `other n` stands for every remaining value of the Go
integer type (it hits the `default` branch of the switch). -/
inductive RunnerStatus
  | normal
  | signalled
  | nonzeroExitStatus
  | memoryLimitExceeded
  | timeLimitExceeded
  | outputLimitExceeded
  | disallowedSyscall
  | other (code : Nat)
deriving DecidableEq

/-- Final status vocabulary (`github.com/criyle/go-judge/types.Status`),
as listed in the repository README's `Status` enum. -/
inductive Status
  | accepted
  | memoryLimitExceeded
  | timeLimitExceeded
  | outputLimitExceeded
  | fileError
  | runtimeError
  | dangerousSyscall
  | internalError
deriving DecidableEq

/-- `convertStatus` from `pkg/runner/run.go` lines 261-278: the switch that
maps a raw sandbox status to the published status. -/
def convertStatus : RunnerStatus → Status
  | .normal => .accepted
  | .signalled => .runtimeError
  | .nonzeroExitStatus => .runtimeError
  | .memoryLimitExceeded => .memoryLimitExceeded
  | .timeLimitExceeded => .timeLimitExceeded
  | .outputLimitExceeded => .outputLimitExceeded
  | .disallowedSyscall => .dangerousSyscall
  | .other _ => .internalError

/-- The raw result received from the sandbox exec channel
(the fields of `go-sandbox` `types.Result` used by `runOne`). -/
structure RawResult where
  status : RunnerStatus
  error : String
  time : Nat
  memory : Nat
deriving DecidableEq

/-- Published result for a single command (`pkg/runner/runner.go` `Result`);
file contents are byte lists keyed by name. -/
structure Result where
  status : Status
  error : String
  time : Nat
  memory : Nat
  files : List (String × List Nat)
deriving DecidableEq

@[simp]
theorem ite_result_status (c : Prop) [Decidable c] (a b : Result) :
    (if c then a else b).status = if c then a.status else b.status := by
  split <;> rfl

@[simp]
theorem ite_result_error (c : Prop) [Decidable c] (a b : Result) :
    (if c then a else b).error = if c then a.error else b.error := by
  split <;> rfl

@[simp]
theorem ite_result_time (c : Prop) [Decidable c] (a b : Result) :
    (if c then a else b).time = if c then a.time else b.time := by
  split <;> rfl

@[simp]
theorem ite_result_memory (c : Prop) [Decidable c] (a b : Result) :
    (if c then a else b).memory = if c then a.memory else b.memory := by
  split <;> rfl

@[simp]
theorem ite_result_files (c : Prop) [Decidable c] (a b : Result) :
    (if c then a else b).files = if c then a.files else b.files := by
  split <;> rfl

/-- Error returned by `copyOutAndCollect`: either a sandbox `Status` value
used as an error (the pipe collector returns `StatusOutputLimitExceeded`),
or any other `error` (from `fmt.Errorf` or I/O); `runOne` distinguishes the
two with a type switch. -/
inductive CollectErr
  | status (s : RunnerStatus)
  | generic (msg : String)
deriving DecidableEq

/-- Modelled from the spec: the `Error()` string of a sandbox `Status`
error value; the dependency's stringification is not in this repository and
no claim constrains its exact text. -/
def runnerStatusString : RunnerStatus → String
  | .normal => "normal"
  | .signalled => "signalled"
  | .nonzeroExitStatus => "nonzero exit status"
  | .memoryLimitExceeded => "memory limit exceeded"
  | .timeLimitExceeded => "time limit exceeded"
  | .outputLimitExceeded => "output limit exceeded"
  | .disallowedSyscall => "disallowed syscall"
  | .other _ => "invalid status"

/-- The result-composition goroutine of `runOne` (`pkg/runner/run.go` lines
154-201), as a pure function of everything it reads: the raw result from
the exec channel, the files and error produced by `copyOutAndCollect`, the
two cgroup controller reads (`CpuacctUsage`, `MemoryMaxUsageInBytes`), the
waiter's `tle` flag, and the command's memory limit.  The sequence of
`let re := ...` rebindings mirrors the successive mutations of `re`. -/
def applyCopyOutErr (re : Result) (copyOutErr : Option CollectErr) : Result :=
  match copyOutErr with
  | some e =>
    if re.error = "" then
      match e with
      | .status s => { re with status := convertStatus s, error := runnerStatusString s }
      | .generic msg => { re with status := .internalError, error := msg }
    else re
  | none => re

@[simp]
theorem applyCopyOutErr_time (re : Result) (copyOutErr : Option CollectErr) :
    (applyCopyOutErr re copyOutErr).time = re.time := by
  unfold applyCopyOutErr
  cases copyOutErr with
  | none => rfl
  | some e => cases e <;> · simp only []; split <;> rfl

@[simp]
theorem applyCopyOutErr_memory (re : Result) (copyOutErr : Option CollectErr) :
    (applyCopyOutErr re copyOutErr).memory = re.memory := by
  unfold applyCopyOutErr
  cases copyOutErr with
  | none => rfl
  | some e => cases e <;> · simp only []; split <;> rfl

@[simp]
theorem applyCopyOutErr_files (re : Result) (copyOutErr : Option CollectErr) :
    (applyCopyOutErr re copyOutErr).files = re.files := by
  unfold applyCopyOutErr
  cases copyOutErr with
  | none => rfl
  | some e => cases e <;> · simp only []; split <;> rfl

def finalizeResult (rt : RawResult) (files : List (String × List Nat))
    (copyOutErr : Option CollectErr)
    (cpuacctUsage : Except String Nat) (memoryMaxUsage : Except String Nat)
    (tle : Bool) (memoryLimit : Nat) : Result :=
  let re : Result := { status := convertStatus rt.status, error := rt.error,
                       time := rt.time, memory := rt.memory, files := files }
  let re : Result := applyCopyOutErr re copyOutErr
  let re : Result :=
    match cpuacctUsage with
    | .error msg => { re with status := .internalError, error := msg }
    | .ok cpuUsage => { re with time := cpuUsage }
  let re : Result :=
    match memoryMaxUsage with
    | .error msg => { re with status := .internalError, error := msg }
    | .ok memoryUsage => { re with memory := memoryUsage }
  let re : Result := if tle then { re with status := .timeLimitExceeded } else re
  let re : Result :=
    if re.memory > memoryLimit then { re with status := .memoryLimitExceeded } else re
  re

/-- Claim C2: the raw-status mapping is total (it is a total Lean function
over every raw status, including the `other` catch-all) and maps exactly as
specified: Normal to Accepted, Signalled and NonzeroExitStatus to
RuntimeError, MemoryLimitExceeded to MemoryLimitExceeded,
TimeLimitExceeded to TimeLimitExceeded, OutputLimitExceeded to
OutputLimitExceeded, DisallowedSyscall to DangerousSyscall, and every other
status to InternalError. -/
theorem convertStatus_spec :
    convertStatus .normal = .accepted ∧
    convertStatus .signalled = .runtimeError ∧
    convertStatus .nonzeroExitStatus = .runtimeError ∧
    convertStatus .memoryLimitExceeded = .memoryLimitExceeded ∧
    convertStatus .timeLimitExceeded = .timeLimitExceeded ∧
    convertStatus .outputLimitExceeded = .outputLimitExceeded ∧
    convertStatus .disallowedSyscall = .dangerousSyscall ∧
    ∀ code : Nat, convertStatus (.other code) = .internalError :=
  ⟨rfl, rfl, rfl, rfl, rfl, rfl, rfl, fun _ => rfl⟩

/-- Claim C1, counterexample: a run in which the waiter set the tle flag
and the measured peak memory (100) exceeds the limit (50) is published as
MemoryLimitExceeded, not TimeLimitExceeded — the memory check at the end of
`runOne` overwrites the status set by the tle check. -/
theorem finalize_tle_mle_cex :
    (finalizeResult ⟨.normal, "", 0, 0⟩ [] none (.ok 5) (.ok 100) true 50).status
      = .memoryLimitExceeded ∧
    (finalizeResult ⟨.normal, "", 0, 0⟩ [] none (.ok 5) (.ok 100) true 50).status
      ≠ .timeLimitExceeded := by
  constructor
  · rfl
  · decide

/-- Claim C1 (amended): the tle check runs before the memory check, so the
tle flag yields TimeLimitExceeded only when the measured peak memory does
not exceed the command's memory limit; whenever the measured peak memory
exceeds the limit, the final status is MemoryLimitExceeded regardless of
the tle flag (MemoryLimitExceeded, applied last, overrides
TimeLimitExceeded). -/
theorem finalize_tle_mle_order (rt : RawResult) (files : List (String × List Nat))
    (copyOutErr : Option CollectErr) (cpuacctUsage : Except String Nat)
    (m memoryLimit : Nat) (tle : Bool) :
    (m ≤ memoryLimit →
      (finalizeResult rt files copyOutErr cpuacctUsage (.ok m) true memoryLimit).status
        = .timeLimitExceeded) ∧
    (m > memoryLimit →
      (finalizeResult rt files copyOutErr cpuacctUsage (.ok m) tle memoryLimit).status
        = .memoryLimitExceeded) := by
  constructor
  · intro h
    have hnot : ¬ memoryLimit < m := by omega
    simp [finalizeResult, hnot]
  · intro h
    simp [finalizeResult, h]

/-- Claim C1, witness for the amended theorem at a concrete input. -/
theorem finalize_tle_mle_order_witness :
    (finalizeResult ⟨.normal, "", 0, 0⟩ [] none (.ok 1) (.ok 10) true 10).status
      = .timeLimitExceeded :=
  (finalize_tle_mle_order ⟨.normal, "", 0, 0⟩ [] none (.ok 1) 10 10 true).1 (by decide)

/-- The result-updating goroutine body of `newProcess`
(linuxcontainer process wrapper): after the raw result arrives, a
successful cgroup read of cpu time or memory overwrites the raw value,
while a failed read is silently ignored (`err == nil` guard). -/
def newProcessResult (rt : RawResult) (cpu : Except String Nat)
    (mem : Except String Nat) : RawResult :=
  let rt1 : RawResult :=
    match cpu with
    | .ok t => { rt with time := t }
    | .error _ => rt
  match mem with
  | .ok m => { rt1 with memory := m }
  | .error _ => rt1

/-- Claim C3, counterexample: the cpu-time controller read fails but the
waiter's tle flag is set, so the published status is TimeLimitExceeded,
not InternalError — the tle check runs after the controller-read error
handling and overwrites the InternalError status. -/
theorem controller_read_override_cex :
    (finalizeResult ⟨.normal, "", 3, 4⟩ [] none (.error "cpu read failed") (.ok 0)
      true 10).status = .timeLimitExceeded ∧
    (finalizeResult ⟨.normal, "", 3, 4⟩ [] none (.error "cpu read failed") (.ok 0)
      true 10).status ≠ .internalError := by
  constructor
  · rfl
  · decide

/-- Claim C3 (amended): when both controller reads succeed, the cpu time
and peak memory placed in the Result are the controller values, overriding
the raw runner-reported values; when a read fails, the status is set to
InternalError with the read error as the message, but only provided the
tle flag and the memory-limit check do not subsequently override the
status (they run later).  In the linuxcontainer `newProcess` wrapper a
failed read is ignored entirely and the raw values are kept. -/
theorem controller_read_spec (rt : RawResult) (files : List (String × List Nat))
    (copyOutErr : Option CollectErr) (u m memoryLimit : Nat) (tle : Bool)
    (ec em : String) :
    (finalizeResult rt files copyOutErr (.ok u) (.ok m) tle memoryLimit).time = u ∧
    (finalizeResult rt files copyOutErr (.ok u) (.ok m) tle memoryLimit).memory = m ∧
    (m ≤ memoryLimit →
      (finalizeResult rt files copyOutErr (.error ec) (.ok m) false memoryLimit).status
        = .internalError ∧
      (finalizeResult rt files copyOutErr (.error ec) (.ok m) false memoryLimit).error
        = ec) ∧
    (rt.memory ≤ memoryLimit →
      (finalizeResult rt files copyOutErr (.ok u) (.error em) false memoryLimit).status
        = .internalError ∧
      (finalizeResult rt files copyOutErr (.ok u) (.error em) false memoryLimit).error
        = em) ∧
    newProcessResult rt (.error ec) (.error em) = rt ∧
    (newProcessResult rt (.ok u) (.ok m)).time = u ∧
    (newProcessResult rt (.ok u) (.ok m)).memory = m := by
  refine ⟨?_, ?_, ?_, ?_, rfl, rfl, rfl⟩
  · simp [finalizeResult]
  · simp [finalizeResult]
  · intro h
    have hnot : ¬ memoryLimit < m := by omega
    constructor <;> simp [finalizeResult, hnot]
  · intro h
    have hnot : ¬ memoryLimit < rt.memory := by omega
    constructor <;> simp [finalizeResult, hnot]

/-- Claim C3, witness for the amended theorem at a concrete input. -/
theorem controller_read_spec_witness :
    (finalizeResult ⟨.normal, "", 3, 4⟩ [] none (.ok 7) (.ok 9) false 10).time = 7 ∧
    (finalizeResult ⟨.normal, "", 3, 4⟩ [] none (.error "boom") (.ok 9) false 10).status
      = .internalError := by
  have h := controller_read_spec ⟨.normal, "", 3, 4⟩ [] none 7 9 10 false "boom" "bam"
  exact ⟨h.1, (h.2.2.1 (by decide)).1⟩

/-- View of one container file as seen by the copy-out task in
`copyOutAndCollect`: the result of `Stat()` on the opened fd (`statErr`,
`modeType` = `stat.Mode() & os.ModeType` which is `0` for a regular file,
`statSize` = `stat.Size()` at stat time) together with the bytes readable
from the fd afterwards (`content`; a concurrently growing file makes
`content` longer than `statSize`). -/
structure ContainerFile where
  statErr : Option String
  modeType : Nat
  statSize : Nat
  content : List Nat
deriving DecidableEq

/-- One copy-out task of `copyOutAndCollect` (envexec source, lines 29-62):
open the path read-only (`none` models an `Open` failure), stat it, reject
non-regular files, reject files larger than a positive `CopyOutMax`, then
read through `io.LimitReader(cf, s)` so at most `statSize` bytes are read.
All failure returns are plain `fmt.Errorf` errors, not sandbox statuses. -/
def collectOneFile (n : String) (f : Option ContainerFile) (copyOutMax : Nat) :
    Except CollectErr (String × List Nat) :=
  match f with
  | none => .error (.generic ("open " ++ n ++ ": no such file or directory"))
  | some cf =>
    match cf.statErr with
    | some msg => .error (.generic msg)
    | none =>
      if cf.modeType ≠ 0 then
        .error (.generic ("File(" ++ n ++ ") is not a regular file"))
      else if 0 < copyOutMax ∧ copyOutMax < cf.statSize then
        .error (.generic ("File(" ++ n ++ ") have size exceeded the limit"))
      else .ok (n, cf.content.take cf.statSize)

/-- Modelled from the spec: the go-sandbox `pipe.Buffer` drains the pipe's
read end into its buffer, storing the bytes observed up to and including
the first `maxBytes` plus at most one extra byte used to detect overflow
(so the buffer holds `min (written, maxBytes + 1)` bytes); the buffer
source itself is a dependency outside this repository. -/
def pipeBufferBytes (written : List Nat) (maxBytes : Nat) : List Nat :=
  written.take (maxBytes + 1)

/-- One pipe-collect task of `copyOutAndCollect` (envexec source, lines
65-75): wait for the buffer to finish, return the sandbox status
`StatusOutputLimitExceeded` as the error when the buffer exceeded its
limit, otherwise deliver the buffer under the collector's name. -/
def collectOnePipe (name : String) (written : List Nat) (maxBytes : Nat) :
    Except CollectErr (String × List Nat) :=
  if maxBytes < (pipeBufferBytes written maxBytes).length then
    .error (.status .outputLimitExceeded)
  else .ok (name, pipeBufferBytes written maxBytes)

/-- `copyOutAndCollect` (envexec source): all copy-out and pipe-collect
tasks run under one `errgroup`; every task runs to completion, each
successful task `put`s its file into the shared map, and `g.Wait` reports
the first error.  The tasks' effects are folded in order: accumulated
files on the left, the retained first error on the right. -/
def copyOutAndCollect (copyOut : List (String × Option ContainerFile))
    (copyOutMax : Nat) (ptc : List (String × List Nat × Nat)) :
    List (String × List Nat) × Option CollectErr :=
  let step := fun (acc : List (String × List Nat) × Option CollectErr)
      (r : Except CollectErr (String × List Nat)) =>
    match r with
    | .ok f => (acc.1 ++ [f], acc.2)
    | .error e =>
      match acc.2 with
      | none => (acc.1, some e)
      | some e0 => (acc.1, some e0)
  let acc := copyOut.foldl
    (fun acc nf => step acc (collectOneFile nf.1 nf.2 copyOutMax)) ([], none)
  ptc.foldl (fun acc p => step acc (collectOnePipe p.1 p.2.1 p.2.2)) acc

/-- Claim C4, counterexample: the producer wrote 3 bytes into a collector
with limit 2, so the collect task fails with OutputLimitExceeded; but in a
run whose waiter also set the tle flag the command's published status is
TimeLimitExceeded, not OutputLimitExceeded — the tle check runs after the
copy-out error handling and overwrites the status. -/
theorem pipe_collect_cex :
    (copyOutAndCollect [] 0 [("stdout", ([1, 1, 1], 2))]).2
      = some (.status .outputLimitExceeded) ∧
    (finalizeResult ⟨.normal, "", 0, 0⟩ []
        (copyOutAndCollect [] 0 [("stdout", ([1, 1, 1], 2))]).2
        (.ok 1) (.ok 0) true 10).status = .timeLimitExceeded ∧
    (finalizeResult ⟨.normal, "", 0, 0⟩ []
        (copyOutAndCollect [] 0 [("stdout", ([1, 1, 1], 2))]).2
        (.ok 1) (.ok 0) true 10).status ≠ .outputLimitExceeded := by
  refine ⟨rfl, rfl, by decide⟩

/-- Claim C4 (amended): a pipe collector with limit `M` delivers a buffer
only when the producer wrote at most `M` bytes, and then it delivers all
of them (so the delivered buffer never exceeds `M` bytes); whenever the
producer wrote more than `M` bytes no buffer is delivered for that pipe,
the collect task fails with the sandbox status OutputLimitExceeded, and
the command's status becomes OutputLimitExceeded provided the raw result
carried no error and no later override applies (controller reads succeed,
the tle flag is unset, and the measured memory is within the limit). -/
theorem pipe_collect_bound (name : String) (written : List Nat) (M : Nat)
    (rt : RawResult) (files : List (String × List Nat)) (u m memoryLimit : Nat) :
    (∀ f, collectOnePipe name written M = .ok f →
      f.2.length ≤ M ∧ f.2 = written ∧ written.length ≤ M) ∧
    (M < written.length →
      collectOnePipe name written M = .error (.status .outputLimitExceeded) ∧
      (rt.error = "" → m ≤ memoryLimit →
        (finalizeResult rt files (some (.status .outputLimitExceeded))
          (.ok u) (.ok m) false memoryLimit).status = .outputLimitExceeded)) := by
  constructor
  · intro f hf
    unfold collectOnePipe at hf
    split at hf
    · simp at hf
    · rename_i hnot
      cases hf
      have hw : written.length ≤ M := by
        simp only [pipeBufferBytes, List.length_take] at hnot
        omega
      have htake : written.take (M + 1) = written :=
        List.take_of_length_le (by omega)
      exact ⟨by simp [pipeBufferBytes, htake, hw], by simp [pipeBufferBytes, htake], hw⟩
  · intro hover
    have hbuf : (pipeBufferBytes written M).length = M + 1 := by
      simp [pipeBufferBytes, List.length_take]
      omega
    constructor
    · simp [collectOnePipe, hbuf]
    · intro herr hm
      have hnot : ¬ memoryLimit < m := by omega
      simp [finalizeResult, applyCopyOutErr, herr, hnot, convertStatus]

/-- Claim C4, witness for the amended theorem at a concrete input. -/
theorem pipe_collect_bound_witness :
    collectOnePipe "stdout" [1, 1] 1 = .error (.status .outputLimitExceeded) ∧
    (finalizeResult ⟨.normal, "", 0, 0⟩ [] (some (.status .outputLimitExceeded))
      (.ok 0) (.ok 0) false 5).status = .outputLimitExceeded := by
  have h := (pipe_collect_bound "stdout" [1, 1] 1 ⟨.normal, "", 0, 0⟩ [] 0 0 5).2
    (by decide)
  exact ⟨h.1, h.2 rfl (by decide)⟩

/-- Claim C5, counterexample: copying out a directory (`modeType` is the
`os.ModeDir` bit) fails with a plain `fmt.Errorf` error, and because that
error is not a sandbox `Status`, `runOne`'s type switch takes its default
branch — the command's published status is InternalError, not FileError. -/
theorem copyout_nonregular_cex :
    (copyOutAndCollect [("sym", some ⟨none, 2147483648, 0, []⟩)] 0 []).1 = [] ∧
    (finalizeResult ⟨.normal, "", 0, 0⟩ []
        (copyOutAndCollect [("sym", some ⟨none, 2147483648, 0, []⟩)] 0 []).2
        (.ok 0) (.ok 0) false 10).status = .internalError ∧
    (finalizeResult ⟨.normal, "", 0, 0⟩ []
        (copyOutAndCollect [("sym", some ⟨none, 2147483648, 0, []⟩)] 0 []).2
        (.ok 0) (.ok 0) false 10).status ≠ .fileError := by
  refine ⟨rfl, rfl, by decide⟩

/-- Claim C5 (amended): a copy-out path naming a non-regular file
(symlink, directory, or device — any nonzero `os.ModeType` bits) makes
that file's copy-out task fail with a plain error, no bytes are delivered
for it, and — absent other overrides — the command's resulting status is
InternalError: the error is a generic `fmt.Errorf`, not a sandbox status,
so `runOne` maps it through its default branch to InternalError rather
than FileError. -/
theorem copyout_nonregular_generic (n : String) (cf : ContainerFile)
    (copyOutMax : Nat) (rt : RawResult) (files : List (String × List Nat))
    (u m memoryLimit : Nat) (msg : String)
    (hstat : cf.statErr = none) (hmode : cf.modeType ≠ 0) :
    collectOneFile n (some cf) copyOutMax
      = .error (.generic ("File(" ++ n ++ ") is not a regular file")) ∧
    (rt.error = "" → m ≤ memoryLimit →
      (finalizeResult rt files (some (.generic msg)) (.ok u) (.ok m)
        false memoryLimit).status = .internalError) := by
  constructor
  · simp [collectOneFile, hstat, hmode]
  · intro herr hm
    have hnot : ¬ memoryLimit < m := by omega
    simp [finalizeResult, applyCopyOutErr, herr, hnot]

/-- Claim C5, witness for the amended theorem at a concrete input. -/
theorem copyout_nonregular_generic_witness :
    collectOneFile "d" (some ⟨none, 2147483648, 4, [9]⟩) 0
      = .error (.generic "File(d) is not a regular file") ∧
    (finalizeResult ⟨.normal, "", 0, 0⟩ []
      (some (.generic "File(d) is not a regular file")) (.ok 0) (.ok 3)
      false 10).status = .internalError := by
  have h := copyout_nonregular_generic "d" ⟨none, 2147483648, 4, [9]⟩ 0
    ⟨.normal, "", 0, 0⟩ [] 0 3 10 "File(d) is not a regular file"
    rfl (by decide)
  exact ⟨h.1, h.2 rfl (by decide)⟩

/-- Claim C10: a copy-out task reads at most the file's stat-time size
bytes — the delivered bytes are exactly the first `statSize` bytes of the
fd's contents, so a file growing concurrently cannot inflate the result —
and when a positive per-file cap `CopyOutMax` is set, a regular file whose
stat size exceeds the cap makes the task fail with an error instead of
delivering truncated bytes. -/
theorem copyout_size_guard (n : String) (cf : ContainerFile) (copyOutMax : Nat) :
    (∀ f, collectOneFile n (some cf) copyOutMax = .ok f →
      f.2.length ≤ cf.statSize ∧ f.2 = cf.content.take cf.statSize) ∧
    (cf.statErr = none → cf.modeType = 0 → 0 < copyOutMax →
      copyOutMax < cf.statSize →
      collectOneFile n (some cf) copyOutMax
        = .error (.generic ("File(" ++ n ++ ") have size exceeded the limit"))) := by
  constructor
  · intro f hf
    unfold collectOneFile at hf
    cases hcf : cf.statErr with
    | some msg => simp [hcf] at hf
    | none =>
      simp only [hcf] at hf
      split at hf
      · simp at hf
      · split at hf
        · simp at hf
        · cases hf
          exact ⟨by simp [List.length_take], rfl⟩
  · intro hstat hmode hpos hbig
    simp [collectOneFile, hstat, hmode, hpos, hbig]

/-- Claim C10, witness at a concrete input: a file whose fd holds 3 bytes
but whose stat size was 2 delivers only the first 2 bytes, and a 100-byte
file under a 10-byte cap fails. -/
theorem copyout_size_guard_witness :
    (("o", [5, 6]) : String × List Nat).2 = [5, 6, 7].take 2 ∧
    collectOneFile "big" (some ⟨none, 0, 100, []⟩) 10
      = .error (.generic "File(big) have size exceeded the limit") := by
  refine ⟨?_, ?_⟩
  · exact ((copyout_size_guard "o" ⟨none, 0, 2, [5, 6, 7]⟩ 0).1 ("o", [5, 6])
      rfl).2
  · exact (copyout_size_guard "big" ⟨none, 0, 100, []⟩ 10).2 rfl rfl
      (by decide) (by decide)

/-- One copy-in source as the copy-in goroutine observes it
(`pkg/runner/run.go` lines 229-248): opening the host file may fail,
copying to the container may fail, or the source's bytes copy over. -/
inductive CopyInSource
  | openFail (msg : String)
  | copyFail (msg : String)
  | src (content : List Nat)
deriving DecidableEq

/-- An `container.OpenCmd` as built by `copyIn`. -/
structure OpenCmd where
  path : String
  flag : Nat
  perm : Nat
deriving DecidableEq

/-- `os.O_CREATE | os.O_RDWR | os.O_TRUNC` (64 + 2 + 512 on Linux), the
flag `copyIn` uses for every destination it opens inside the container. -/
def copyInOpenFlag : Nat := 64 + 2 + 512

/-- The open commands `copyIn` builds: each destination path inside the
container is opened with create+truncate and permission `0777`. -/
def copyInOpenCmds (copyInFiles : List (String × CopyInSource)) : List OpenCmd :=
  copyInFiles.map (fun nf => { path := nf.1, flag := copyInOpenFlag, perm := 511 })

/-- `writeErrorC` (`pkg/runner/run.go` lines 294-299): non-blocking send
into the one-slot error channel; the first error is stored, later errors
are dropped by the `default` branch. -/
def writeErrorC (errC : Option String) (e : String) : Option String :=
  match errC with
  | none => some e
  | some e0 => some e0

/-- What one copy-in goroutine contributes: an error written to the shared
channel, or its successfully copied bytes.  Nothing aborts the goroutine
from outside — it always runs to completion. -/
def copyInStep (acc : Option String × List (List Nat)) (f : CopyInSource) :
    Option String × List (List Nat) :=
  match f with
  | .openFail m => (writeErrorC acc.1 m, acc.2)
  | .copyFail m => (writeErrorC acc.1 m, acc.2)
  | .src c => (acc.1, acc.2 ++ [c])

/-- The copy-in goroutines of `copyIn` joined by `wg.Wait()`: the shared
error channel retains only the first error, and every source's copy is
attempted regardless of other goroutines' failures. -/
def copyInRun (files : List CopyInSource) : Option String × List (List Nat) :=
  files.foldl copyInStep (none, [])

/-- `copyIn` (`pkg/runner/run.go` lines 206-259): runs all copies, then
returns the error found in the channel, if any. -/
def copyIn (copyInFiles : List (String × CopyInSource)) : Option String :=
  (copyInRun (copyInFiles.map Prod.snd)).1

/-- The bytes a source contributes when its copy succeeds. -/
def copyInContent : CopyInSource → Option (List Nat)
  | .openFail _ => none
  | .copyFail _ => none
  | .src c => some c

theorem copyInStep_foldl (files : List CopyInSource) (errC : Option String)
    (done : List (List Nat)) :
    (files.foldl copyInStep (errC, done)).2 = done ++ files.filterMap copyInContent := by
  induction files generalizing errC done with
  | nil => simp
  | cons f rest ih =>
    cases f with
    | openFail m => simp [copyInStep, copyInContent, ih]
    | copyFail m => simp [copyInStep, copyInContent, ih]
    | src c => simp [copyInStep, copyInContent, ih]

theorem copyInStep_foldl_err (files : List CopyInSource) (e : String)
    (done : List (List Nat)) :
    (files.foldl copyInStep (some e, done)).1 = some e := by
  induction files generalizing done with
  | nil => rfl
  | cons f rest ih => cases f <;> simp [copyInStep, writeErrorC, ih]

/-- Cgroup limit-setting outcomes observed by `runOne`
(`SetMemoryLimitInBytes` and `SetPidsMax`). -/
structure CgroupSetup where
  setMemoryLimitErr : Option String
  setPidsMaxErr : Option String
deriving DecidableEq

/-- What `runOne` produces: either it returns an error before starting the
command (`return nil, err` — no `Result` is ever published for it), or it
eventually publishes a `Result` on its channel. -/
inductive RunOneOutcome
  | earlyError (msg : String)
  | finished (re : Result)
deriving DecidableEq

/-- The early phase of `runOne` (`pkg/runner/run.go` lines 103-122): set
the cgroup limits, then run copy-in when the map is nonempty; any failure
makes `runOne` return the error, otherwise the command runs and publishes
the composed result (`execResult` stands for the value produced by
`finalizeResult`). -/
def runOne (cg : CgroupSetup) (copyInFiles : List (String × CopyInSource))
    (execResult : Result) : RunOneOutcome :=
  match cg.setMemoryLimitErr with
  | some e => .earlyError e
  | none =>
    match cg.setPidsMaxErr with
    | some e => .earlyError e
    | none =>
      if 0 < copyInFiles.length then
        match copyIn copyInFiles with
        | some e => .earlyError e
        | none => .finished execResult
      else .finished execResult

/-- Claim C6, counterexample: an error on the first copy-in source does
not abort the second copy (its bytes are still copied into the
container), and a copy-in failure makes `runOne` return an error — Run
propagates it and no Result carrying FileError (or any status) is
published for the command. -/
theorem copyin_failure_cex :
    copyInRun [.openFail "host open failed", .src [7]]
      = (some "host open failed", [[7]]) ∧
    runOne ⟨none, none⟩ [("a", .openFail "host open failed")]
      ⟨.accepted, "", 0, 0, []⟩ = .earlyError "host open failed" :=
  ⟨rfl, rfl⟩

/-- Claim C6 (amended): copy-in opens each destination path inside the
container with `O_CREATE | O_RDWR | O_TRUNC` and permission `0777`, and
copies all sources in parallel goroutines sharing a single one-slot error
channel that retains only the first error; an error does NOT abort the
other copies — every source's copy still runs to completion — and a
copy-in failure does not yield a FileError status: `runOne` returns the
error outright, so no Result is published for the command at all. -/
theorem copyin_behavior (copyInFiles : List (String × CopyInSource))
    (execResult : Result) (e : String)
    (hfail : copyIn copyInFiles = some e) :
    (∀ oc, oc ∈ copyInOpenCmds copyInFiles → oc.flag = 578 ∧ oc.perm = 511) ∧
    (∀ srcs : List CopyInSource,
      (copyInRun srcs).2 = List.filterMap copyInContent srcs) ∧
    (∀ (srcs : List CopyInSource) (e0 : String),
      (srcs.foldl copyInStep (some e0, [])).1 = some e0) ∧
    runOne ⟨none, none⟩ copyInFiles execResult = .earlyError e := by
  refine ⟨?_, ?_, ?_, ?_⟩
  · intro oc hoc
    simp only [copyInOpenCmds, List.mem_map] at hoc
    obtain ⟨nf, _, rfl⟩ := hoc
    exact ⟨rfl, rfl⟩
  · intro srcs
    simpa using copyInStep_foldl srcs none []
  · intro srcs e0
    exact copyInStep_foldl_err srcs e0 []
  · cases copyInFiles with
    | nil => simp [copyIn, copyInRun] at hfail
    | cons f rest => simp [runOne, hfail]

/-- Claim C6, witness for the amended theorem at a concrete input. -/
theorem copyin_behavior_witness :
    runOne ⟨none, none⟩ [("w", .copyFail "disk full")] ⟨.accepted, "", 0, 0, []⟩
      = .earlyError "disk full" :=
  (copyin_behavior [("w", .copyFail "disk full")] ⟨.accepted, "", 0, 0, []⟩
    "disk full" rfl).2.2.2

/-- `memoryLimitExtra` (`pkg/runner/run.go` line 19): `16 << 10` bytes of
headroom added to the caller's memory limit. -/
def memoryLimitExtra : Nat := 16 <<< 10

/-- The argument `runOne` passes to `SetMemoryLimitInBytes`
(`pkg/runner/run.go` line 110): `uint64(c.MemoryLimit) + memoryLimitExtra`
with Go's wrap-around `uint64` addition. -/
def setMemoryLimitArg (memoryLimit : Nat) : Nat :=
  (memoryLimit + memoryLimitExtra) % 2 ^ 64

/-- Claim C7, counterexample: for the representable caller limit
`2^64 - 1` the programmed value is 16383 — the `uint64` addition wraps
around, so the programmed limit is not the exact integer sum
`limit + 16384`. -/
theorem memory_headroom_cex :
    setMemoryLimitArg (2 ^ 64 - 1) = 16383 ∧
    setMemoryLimitArg (2 ^ 64 - 1) ≠ 2 ^ 64 - 1 + 16384 := by
  constructor
  · decide
  · decide

/-- Claim C7 (amended): the memory limit programmed into the resource
controller is `(limit + 16384) mod 2^64` — equal to the exact integer sum
`limit + 16384` whenever that sum fits in an unsigned 64-bit integer,
which the wrap-around addition at the top end of the `uint64` range
prevents in general. -/
theorem memory_headroom_exact (memoryLimit : Nat)
    (h : memoryLimit + memoryLimitExtra < 2 ^ 64) :
    setMemoryLimitArg memoryLimit = memoryLimit + 16384 := by
  have he : memoryLimitExtra = 16384 := by decide
  unfold setMemoryLimitArg
  rw [Nat.mod_eq_of_lt h, he]

/-- Claim C7, witness for the amended theorem at a concrete input. -/
theorem memory_headroom_exact_witness :
    setMemoryLimitArg 67108864 = 67108864 + 16384 :=
  memory_headroom_exact 67108864 (by decide)

/-- Cgroup state as the `wCgroup` wrapper (`runner/pool.go`) sees it: the
accumulated usage counters and whether the two reset writes fail. -/
structure CgroupSt where
  cpuUsage : Nat
  memMaxUsage : Nat
  setCpuacctFails : Bool
  setMemoryFails : Bool
deriving DecidableEq

/-- `wCgroup.Reset` (`runner/pool.go` lines 102-110): write zero to the
cpuacct usage, then zero to the memory max usage; the first failing write
returns its error and leaves the remaining counters unreset. -/
def wCgroupReset (c : CgroupSt) : CgroupSt × Option String :=
  if c.setCpuacctFails then (c, some "SetCpuacctUsage failed")
  else
    let c1 : CgroupSt := { c with cpuUsage := 0 }
    if c.setMemoryFails then (c1, some "SetMemoryMaxUsageInBytes failed")
    else ({ c1 with memMaxUsage := 0 }, none)

/-- The holdings of `wCgroupPool` (`runner/pool.go`). -/
structure WCgroupPool where
  cgs : List CgroupSt
deriving DecidableEq

/-- `wCgroupPool.Put` (`runner/pool.go` lines 168-174): calls `c.Reset()`,
discards its error, and appends the item to the pool unconditionally. -/
def wCgroupPoolPut (w : WCgroupPool) (c : CgroupSt) : WCgroupPool :=
  { cgs := w.cgs ++ [(wCgroupReset c).1] }

/-- `wCgroupPool.Get` (`runner/pool.go` lines 151-166): LIFO pop of the
last holding, or hand out a freshly built cgroup (`built`) when empty. -/
def wCgroupPoolGet (w : WCgroupPool) (built : CgroupSt) : CgroupSt × WCgroupPool :=
  match w.cgs.getLast? with
  | some rt => (rt, { cgs := w.cgs.dropLast })
  | none => (built, w)

/-- Modelled from the spec: a container environment as the environment
pool sees it — `reset` wipes the work directory; the go-sandbox
`container.Environment.Reset` implementation is outside this repository,
so only its success/failure and its effect on the dirty flag are kept. -/
structure EnvSt where
  dirty : Bool
  resetFails : Bool
deriving DecidableEq

/-- The environment's `Reset()` call as observed by `pool.Put`. -/
def envReset (e : EnvSt) : EnvSt × Option String :=
  if e.resetFails then (e, some "reset failed")
  else ({ e with dirty := false }, none)

/-- `pool.Put` (`runner/pool.go` lines 38-45): calls `env.Reset()`,
discards the error, and appends the environment to the pool. -/
def poolPut (p : List EnvSt) (env : EnvSt) : List EnvSt :=
  p ++ [(envReset env).1]

/-- `pool.Get` (`runner/pool.go` lines 26-36): LIFO pop or build. -/
def poolGet (p : List EnvSt) (built : EnvSt) : EnvSt × List EnvSt :=
  match p.getLast? with
  | some rt => (rt, p.dropLast)
  | none => (built, p)

/-- Claim C8, counterexample: a cgroup whose reset write fails (stale cpu
usage 42 is kept) is nevertheless appended to the pool by `Put`, and the
next `Get` hands out exactly that item — an acquire can yield an item
whose reset failed, which the claim forbids. -/
theorem pool_reset_ignored_cex :
    (wCgroupReset ⟨42, 7, true, false⟩).2 = some "SetCpuacctUsage failed" ∧
    (wCgroupPoolGet (wCgroupPoolPut ⟨[]⟩ ⟨42, 7, true, false⟩) ⟨0, 0, false, false⟩).1
      = ⟨42, 7, true, false⟩ :=
  ⟨rfl, rfl⟩

/-- Claim C8 (amended): release (`Put`) does reset the item before making
it available again, but the reset error is discarded and the item is
returned to the pool unconditionally — in both the environment pool and
the cgroup pool — so an item whose reset failed is pooled with its stale
state and a later acquire can hand it out; nothing destroys it.  A
successful cgroup reset zeroes both usage counters. -/
theorem pool_put_reset_behavior (w : WCgroupPool) (c : CgroupSt)
    (p : List EnvSt) (env : EnvSt) (built : CgroupSt) :
    (wCgroupPoolPut w c).cgs = w.cgs ++ [(wCgroupReset c).1] ∧
    poolPut p env = p ++ [(envReset env).1] ∧
    (wCgroupPoolGet (wCgroupPoolPut w c) built).1 = (wCgroupReset c).1 ∧
    (c.setCpuacctFails = true → (wCgroupReset c).1 = c) ∧
    (c.setCpuacctFails = false → c.setMemoryFails = false →
      (wCgroupReset c).1.cpuUsage = 0 ∧ (wCgroupReset c).1.memMaxUsage = 0 ∧
      (wCgroupReset c).2 = none) := by
  refine ⟨rfl, rfl, ?_, ?_, ?_⟩
  · simp [wCgroupPoolGet, wCgroupPoolPut]
  · intro h
    simp [wCgroupReset, h]
  · intro h1 h2
    simp [wCgroupReset, h1, h2]

/-- Claim C8, witness for the amended theorem at a concrete input. -/
theorem pool_put_reset_behavior_witness :
    (wCgroupReset ⟨9, 9, true, false⟩).1 = ⟨9, 9, true, false⟩ :=
  (pool_put_reset_behavior ⟨[]⟩ ⟨9, 9, true, false⟩ [] ⟨false, false⟩
    ⟨0, 0, false, false⟩).2.2.2.1 rfl

/-- A gin handler relevant to auth: the token middleware, or any of the
other middlewares (logging, recovery, metrics) that never abort. -/
inductive Middleware
  | tokenAuthMW (token : String)
  | otherMW (name : String)
deriving DecidableEq

/-- The gin engine as far as routing and middleware attachment go: `Use`
extends the current chain, and registering a route captures the chain as
it is at registration time — a route registered before `Use(mw)` never
runs `mw`. -/
structure GinEngine where
  handlersChain : List Middleware
  routes : List (String × List Middleware)

def ginUse (r : GinEngine) (mw : Middleware) : GinEngine :=
  { r with handlersChain := r.handlersChain ++ [mw] }

def ginHandle (r : GinEngine) (path : String) : GinEngine :=
  { r with routes := r.routes ++ [(path, r.handlersChain)] }

/-- The configuration fields of `initHTTPMux`. -/
structure HTTPConf where
  release : Bool
  silent : Bool
  enableMetrics : Bool
  authToken : String
  enableDebug : Bool

/-- Modelled from the spec: the routes added by `restHandle.Register` and
`wsHandle.Register` (`rest_executor` and `ws_executor` are not in the
sources): the REST run and file endpoints and the WebSocket endpoint. -/
def restRoutes : List String := ["/run", "/file", "/file/:fid", "/ws"]

/-- `initHTTPMux` (`cmd/executorserver/main.go` lines 175-215), keeping
the registration order of the source: logging/recovery middlewares, the
metrics middleware and route, the `/version` route, then — only if a
token is configured — the token-auth middleware, then the REST and
WebSocket routes, then the debug routes. -/
def initHTTPMux (conf : HTTPConf) : GinEngine :=
  let r : GinEngine := { handlersChain := [], routes := [] }
  let r := if conf.silent then ginUse r (.otherMW "recovery")
    else ginUse (ginUse r (.otherMW "ginzap")) (.otherMW "recoveryWithZap")
  let r := if conf.enableMetrics then ginHandle (ginUse r (.otherMW "prometheus")) "/metrics"
    else r
  let r := ginHandle r "/version"
  let r := if conf.authToken ≠ "" then ginUse r (.tokenAuthMW conf.authToken) else r
  let r := restRoutes.foldl ginHandle r
  if conf.enableDebug then ginHandle r "/debug/pprof/" else r

/-- `tokenAuth` (`cmd/executorserver/main.go` lines 253-263): the request
passes when the `Authorization` header starts with `Bearer ` and the rest
equals the configured token. -/
def tokenAuthPass (token : String) (authHeader : String) : Bool :=
  authHeader.take 7 = "Bearer " && authHeader.drop 7 = token

/-- Run a route's middleware chain on a request: a failing token check
aborts with HTTP status 401, everything else continues. -/
def runChain (authHeader : String) : List Middleware → Option Nat
  | [] => none
  | .tokenAuthMW token :: rest =>
    if tokenAuthPass token authHeader then runChain authHeader rest else some 401
  | .otherMW _ :: rest => runChain authHeader rest

/-- Dispatch a request: 404 when no route matches, the aborting
middleware's status when one aborts, 200 otherwise. -/
def serve (r : GinEngine) (path : String) (authHeader : String) : Nat :=
  match r.routes.find? (fun rt => rt.1 = path) with
  | none => 404
  | some rt =>
    match runChain authHeader rt.2 with
    | some code => code
    | none => 200

/-- `grpcTokenAuth` (`cmd/executorserver/main.go` lines 265-276): the
bearer token extracted from the gRPC metadata (`none` when absent) must
equal the configured token, otherwise the interceptor returns an
Unauthenticated error. -/
def grpcTokenAuth (token : String) (md : Option String) : Except String Unit :=
  match md with
  | none => .error "unauthenticated: missing bearer token"
  | some reqToken =>
    if reqToken = token then .ok ()
    else .error "unauthenticated: invalid auth token"

/-- Claim C9, counterexample: with auth token `secret` configured, a
request to `/version` with no `Authorization` header at all is answered
200, not 401 — `/version` is registered before the token middleware is
attached, so it bypasses auth, contradicting `for all routes`. -/
theorem auth_bypass_cex :
    serve (initHTTPMux ⟨true, true, false, "secret", false⟩) "/version" "" = 200 ∧
    serve (initHTTPMux ⟨true, true, false, "secret", false⟩) "/run" "" = 401 := by
  constructor <;> rfl

/-- Claim C9 (amended): when an auth token is configured, every REST/WS
request to a route registered after the token middleware (`/run`, the
file endpoints, the WebSocket endpoint, the debug routes) that does not
carry `Authorization: Bearer <token>` is rejected with HTTP 401, and
every gRPC call whose bearer metadata is missing or different from the
token is rejected as Unauthenticated; but `/version` (and `/metrics`
when enabled) are registered before the middleware and are served without
any token check. -/
theorem auth_token_routes (conf : HTTPConf) (path authHeader : String)
    (htok : conf.authToken ≠ "") (hpath : path ∈ restRoutes)
    (hbad : tokenAuthPass conf.authToken authHeader = false) :
    serve (initHTTPMux conf) path authHeader = 401 ∧
    serve (initHTTPMux conf) "/version" authHeader = 200 ∧
    grpcTokenAuth conf.authToken none
      = .error "unauthenticated: missing bearer token" ∧
    (∀ s : String, s ≠ conf.authToken →
      grpcTokenAuth conf.authToken (some s)
        = .error "unauthenticated: invalid auth token") := by
  obtain ⟨release, silent, metrics, token, debug⟩ := conf
  simp only [ne_eq] at htok
  refine ⟨?_, ?_, rfl, ?_⟩
  · fin_cases hpath <;>
      cases silent <;> cases metrics <;> cases debug <;>
      simp [initHTTPMux, ginUse, ginHandle, restRoutes, serve, runChain, htok, hbad]
  · cases silent <;> cases metrics <;> cases debug <;>
      simp [initHTTPMux, ginUse, ginHandle, restRoutes, serve, runChain, htok]
  · intro s hs
    simp [grpcTokenAuth, hs]

/-- Claim C9, witness for the amended theorem at a concrete input. -/
theorem auth_token_routes_witness :
    serve (initHTTPMux ⟨false, true, false, "secret", false⟩) "/run" "Bearer wrong"
      = 401 :=
  (auth_token_routes ⟨false, true, false, "secret", false⟩ "/run" "Bearer wrong"
    (by decide) (by decide) (by decide)).1

end GoJudge
